import Mathlib

/-!
Verification development for the CANTILEVER repository: a contact book
(contact_book.py) and a personal finance tracker
(personal_finance_tracker.py.py).  The Python code is shallowly embedded:
the in-memory contact list and the SQLite tables become explicit state
records, SQL REAL amounts become exact rationals, and every operation is a
pure function from state (plus arguments) to state and result.
-/

/-! ## Contact book: data model (contact_book.py) -/

/-- Model of one contact record, the dict `{"name": .., "phone": .., "email": ..}`
kept in `self.contacts` and persisted to contacts.json. -/
structure Contact where
  name : String
  phone : String
  email : String
deriving DecidableEq

/-- Error kinds surfaced by the contact book UI.  `validationError` is the
"Name and Phone are required" warning, `duplicateKey` the "Contact already
exists" warning, `noSelection` the "Select a contact to update/delete"
warning.  `notFound` is the error kind named by the specification for an
absent update target; the code never raises it (see the update model). -/
inductive CBError where
  | validationError
  | duplicateKey
  | notFound
  | noSelection
deriving DecidableEq

/-- Model of Python's `str.strip()`: drop leading and trailing whitespace.
Written structurally over the character list so that concrete instances
evaluate inside the kernel. -/
def pyStrip (s : String) : String :=
  ((s.toList.dropWhile Char.isWhitespace).reverse.dropWhile Char.isWhitespace).reverse.asString

/-- Model of `ContactBookApp.add_contact` (contact_book.py lines 113-126).
The entry contents are stripped, then: empty name or phone warns
"Name and Phone are required" and changes nothing; an existing contact with
the same (case-sensitively compared) name warns "Contact already exists" and
changes nothing; otherwise the new record is appended.  The first component
of the result is the contact list after the call, the second the warning if
one was shown. -/
def ContactBookApp.add_contact (contacts : List Contact) (name phone email : String) :
    List Contact × Option CBError :=
  let n := pyStrip name
  let p := pyStrip phone
  let e := pyStrip email
  if n = "" ∨ p = "" then (contacts, some CBError.validationError)
  else if contacts.any (fun c => c.name == n) then (contacts, some CBError.duplicateKey)
  else (contacts ++ [⟨n, p, e⟩], none)

/-- Helper for the update model: the Python code looks up the first contact
whose stored name equals the selected name and mutates that record in
place; this function replaces the first matching record. -/
def replaceFirstContact : List Contact → String → Contact → List Contact
  | [], _, _ => []
  | c :: rest, oldName, newC =>
      if c.name == oldName then newC :: rest
      else c :: replaceFirstContact rest oldName newC

/-- Model of `ContactBookApp.update_contact` (contact_book.py lines 129-142).
With no listbox selection a "Select a contact to update" warning is shown
and nothing changes.  With a selected name, the first contact carrying that
name has all three fields overwritten with the stripped entry contents —
with no validation of the new values and no duplicate check.  When no
contact carries the selected name (the `if contact:` guard fails) the call
is a silent no-op: no warning, no change. -/
def ContactBookApp.update_contact (contacts : List Contact) (selection : Option String)
    (name phone email : String) : List Contact × Option CBError :=
  match selection with
  | none => (contacts, some CBError.noSelection)
  | some oldName =>
      if contacts.any (fun c => c.name == oldName) then
        (replaceFirstContact contacts oldName ⟨pyStrip name, pyStrip phone, pyStrip email⟩, none)
      else (contacts, none)

/-- Model of `ContactBookApp.delete_contact` (contact_book.py lines 145-154).
With no selection a warning is shown; otherwise every contact whose name
equals the selected name is removed (`[c for c in contacts if c["name"] != selected_name]`),
with no error when nothing matches. -/
def ContactBookApp.delete_contact (contacts : List Contact) (selection : Option String) :
    List Contact × Option CBError :=
  match selection with
  | none => (contacts, some CBError.noSelection)
  | some name => (contacts.filter (fun c => c.name != name), none)

/-- Names of the stored contacts are pairwise distinct. -/
def namesUnique (contacts : List Contact) : Prop :=
  contacts.Pairwise (fun a b => a.name ≠ b.name)

/-! ## Contact book: persistence (contacts.json) -/

/-- The fragment of JSON that contact records occupy: strings, arrays and
objects.  `json.dump`/`json.load` round-trip such documents exactly, so the
persisted file is modelled as the parsed document itself, `none` standing
for a missing file or malformed content. -/
inductive Json where
  | str : String → Json
  | arr : List Json → Json
  | obj : List (String × Json) → Json

/-- Encoding of a contact as the JSON object `json.dump` writes for the
dict `{"name": .., "phone": .., "email": ..}`. -/
def contactToJson (c : Contact) : Json :=
  Json.obj [("name", Json.str c.name), ("phone", Json.str c.phone), ("email", Json.str c.email)]

/-- Reading a contact back out of a JSON element, mirroring the field
accesses `contact["name"]`, `contact["phone"]`, `contact["email"]` the app
performs on loaded data. -/
def contactOfJson : Json → Option Contact
  | Json.obj fields =>
      match fields.lookup "name", fields.lookup "phone", fields.lookup "email" with
      | some (Json.str n), some (Json.str p), some (Json.str e) => some ⟨n, p, e⟩
      | _, _, _ => none
  | _ => none

/-- Model of `ContactBookApp.save_contacts` (contact_book.py lines 86-88):
the whole contact list is dumped as one JSON array, replacing the file. -/
def ContactBookApp.save_contacts (contacts : List Contact) : Option Json :=
  some (Json.arr (contacts.map contactToJson))

/-- Model of `ContactBookApp.load_contacts` (contact_book.py lines 74-83):
a missing file, malformed content, or a parsed document that is not a list
all yield the empty list; otherwise the parsed list's elements are
returned as loaded. -/
def ContactBookApp.load_contacts (file : Option Json) : List Json :=
  match file with
  | some (Json.arr xs) => xs
  | _ => []

/-! ## Finance tracker: data model (personal_finance_tracker.py.py) -/

/-- Model of one row of the `transactions` table.  `amount REAL` is
modelled as an exact rational; `created_at` is the insertion timestamp,
modelled as a strictly increasing counter. -/
structure Transaction where
  id : Nat
  date : String
  type : String
  category : String
  amount : Rat
  currency : String
  description : String
  created_at : Nat
deriving DecidableEq

/-- Model of one row of the `budgets` table. -/
structure Budget where
  id : Nat
  month : String
  category : String
  allocated_amount : Rat
  spent_amount : Rat
deriving DecidableEq

/-- Model of one row of the `savings_goals` table. -/
structure SavingsGoal where
  id : Nat
  name : String
  target_amount : Rat
  current_amount : Rat
  deadline : Option String
deriving DecidableEq

/-- Model of the finance.db state: the four tables, plus the AUTOINCREMENT
counter for transaction ids and the timestamp counter.  `currencySetting`
is the `default_currency` column of the single `currency_settings` row with
id 1 (`none` when that row is absent). -/
structure FinanceDatabase where
  transactions : List Transaction
  budgets : List Budget
  savings_goals : List SavingsGoal
  currencySetting : Option String
  nextId : Nat
  seq : Nat
deriving DecidableEq

/-- State after `init_database`: empty tables and the
`INSERT OR IGNORE INTO currency_settings (id, default_currency) VALUES (1, 'INR')`
row. -/
def FinanceDatabase.init : FinanceDatabase :=
  { transactions := [], budgets := [], savings_goals := [],
    currencySetting := some "INR", nextId := 1, seq := 0 }

/-- Model of `FinanceDatabase.add_transaction` (lines 78-95).  The INSERT
carries no validation of date or amount; the only constraint that can
reject a row here is `CHECK (type IN ('income', 'expense'))`, whose
violation is caught and reported as `False` with the table unchanged.  On
success the row is appended with the next AUTOINCREMENT id and the current
insertion timestamp. -/
def FinanceDatabase.add_transaction (db : FinanceDatabase) (date ttype category : String)
    (amount : Rat) (currency descr : String) : FinanceDatabase × Bool :=
  if ttype = "income" ∨ ttype = "expense" then
    ({ db with
        transactions :=
          db.transactions ++ [⟨db.nextId, date, ttype, category, amount, currency, descr, db.seq⟩],
        nextId := db.nextId + 1,
        seq := db.seq + 1 }, true)
  else (db, false)

/-- Outcome of the GUI-level add: `validationError` covers the
"Please fill in all required fields" and "Amount must be positive" message
boxes, `dbError` the "Failed to add transaction" box shown when the
database layer returns `False`. -/
inductive AddOutcome where
  | success
  | validationError
  | dbError
deriving DecidableEq

/-- Model of `PersonalFinanceApp.add_transaction` (lines 663-702), the
boundary where validation happens: an empty category (or amount field) is
rejected, then a parsed amount ≤ 0 is rejected; only then is the row handed
to the database layer.  The date is never validated — the GUI always passes
today's date, and the database accepts any string. -/
def PersonalFinanceApp.add_transaction (db : FinanceDatabase) (date ttype category : String)
    (amount : Rat) (currency descr : String) : FinanceDatabase × AddOutcome :=
  if category = "" then (db, AddOutcome.validationError)
  else if amount ≤ 0 then (db, AddOutcome.validationError)
  else
    match FinanceDatabase.add_transaction db date ttype category amount currency descr with
    | (db2, true) => (db2, AddOutcome.success)
    | (db2, false) => (db2, AddOutcome.dbError)

/-- Model of `FinanceDatabase.clear_all_data` (lines 113-128): the three
DELETE statements empty `transactions`, `budgets` and `savings_goals`;
`currency_settings` is not touched. -/
def FinanceDatabase.clear_all_data (db : FinanceDatabase) : FinanceDatabase × Bool :=
  ({ db with transactions := [], budgets := [], savings_goals := [] }, true)

/-- Model of `FinanceDatabase.get_default_currency` (lines 130-139):
the stored row's value, with 'INR' when the row is absent. -/
def FinanceDatabase.get_default_currency (db : FinanceDatabase) : String :=
  db.currencySetting.getD "INR"

/-- SQL `SUM(amount)` over a set of rows: NULL (here `none`) when no row
matches, otherwise the sum. -/
def sqlSumAmount (ts : List Transaction) : Option Rat :=
  match ts with
  | [] => none
  | _ => some ((ts.map Transaction.amount).sum)

/-- The interpolated filter `AND currency = '<currency>'` of `get_balance`:
for currency values free of quote characters (all values the application
uses) it is an equality test on the row's currency; no filter when the
argument is `None`. -/
def matchesCurrency (filt : Option String) (t : Transaction) : Bool :=
  match filt with
  | none => true
  | some c => t.currency == c

/-- Result record of `get_balance`. -/
structure Balance where
  total_income : Rat
  total_expenses : Rat
  balance : Rat
deriving DecidableEq

/-- Model of `FinanceDatabase.get_balance` (lines 184-205): two SUM queries
over the income and the expense rows (optionally currency-filtered), each
NULL result collapsed to 0 by `or 0`, and their difference. -/
def FinanceDatabase.get_balance (db : FinanceDatabase) (currency : Option String) : Balance :=
  let total_income :=
    (sqlSumAmount (db.transactions.filter
      (fun t => t.type == "income" && matchesCurrency currency t))).getD 0
  let total_expenses :=
    (sqlSumAmount (db.transactions.filter
      (fun t => t.type == "expense" && matchesCurrency currency t))).getD 0
  { total_income := total_income, total_expenses := total_expenses,
    balance := total_income - total_expenses }

/-- Sum of the amounts of the rows of one category, the value `SUM(amount)`
takes within one `GROUP BY category` group. -/
def catSum (ts : List Transaction) (c : String) : Rat :=
  ((ts.filter (fun t => t.category == c)).map Transaction.amount).sum

/-- Model of `SELECT category, SUM(amount) .. GROUP BY category`: one pair
per distinct category occurring among the rows (Python then wraps the pairs
in a dict, so only lookup is observable). -/
def groupByCategory (ts : List Transaction) : List (String × Rat) :=
  ((ts.map Transaction.category).dedup).map (fun c => (c, catSum ts c))

/-- Result record of `get_monthly_data`. -/
structure MonthlyData where
  income : Rat
  expenses : Rat
  expense_categories : List (String × Rat)
  income_categories : List (String × Rat)

/-- Prefix test on strings, written structurally over the character lists.
For a pattern free of `%` and `_` wildcards, the SQL test
`date LIKE pattern || '%'` holds exactly when the date string starts with
the pattern. -/
def strStartsWith (s pre : String) : Bool :=
  pre.toList.isPrefixOf s.toList

/-- Strings of the form "YYYY-MM".  Such strings contain no `%` or `_`, so
for them the SQL pattern `date LIKE 'YYYY-MM%'` is exactly the test that
the date string starts with the year-month string. -/
def isYearMonth (s : String) : Bool :=
  match s.toList with
  | [a, b, c, d, '-', e, f] =>
      a.isDigit && b.isDigit && c.isDigit && d.isDigit && e.isDigit && f.isDigit
  | _ => false

/-- Model of `FinanceDatabase.get_monthly_data` (lines 207-249): income and
expense SUMs over the rows whose date starts with the given month (NULL
collapsed to 0), and the two per-category GROUP BY maps over the same
filtered rows. -/
def FinanceDatabase.get_monthly_data (db : FinanceDatabase) (month : String) : MonthlyData :=
  let monthIncome := db.transactions.filter
    (fun t => t.type == "income" && strStartsWith t.date month)
  let monthExpense := db.transactions.filter
    (fun t => t.type == "expense" && strStartsWith t.date month)
  { income := (sqlSumAmount monthIncome).getD 0,
    expenses := (sqlSumAmount monthExpense).getD 0,
    expense_categories := groupByCategory monthExpense,
    income_categories := groupByCategory monthIncome }

/-- Lexicographic comparison of character lists by code point.  SQLite
compares TEXT values as their UTF-8 byte sequences via memcmp, and on
UTF-8 the byte order coincides with the code-point lexicographic order
modelled here. -/
def charsLt : List Char → List Char → Bool
  | [], [] => false
  | [], _ :: _ => true
  | _ :: _, [] => false
  | a :: as, b :: bs =>
      if a.toNat < b.toNat then true
      else if b.toNat < a.toNat then false
      else charsLt as bs

/-- String comparison as SQLite orders TEXT columns. -/
def strLt (a b : String) : Bool :=
  charsLt a.toList b.toList

/-- The row order produced by `ORDER BY date DESC, created_at DESC`:
a row precedes another when its date string is larger, or the dates are
equal and its insertion timestamp is at least as large. -/
def txnOrder (a b : Transaction) : Prop :=
  strLt b.date a.date = true ∨ (a.date = b.date ∧ b.created_at ≤ a.created_at)

instance : DecidableRel txnOrder := fun a b =>
  inferInstanceAs (Decidable (strLt b.date a.date = true ∨
    (a.date = b.date ∧ b.created_at ≤ a.created_at)))

/-- Model of `FinanceDatabase.get_transactions` (lines 158-182): the rows
sorted by `ORDER BY date DESC, created_at DESC`.  The `LIMIT` clause is
appended only when `if limit:` holds, so a limit of 0 (Python-falsy) yields
the unrestricted query; a negative limit reaches SQLite, where a negative
LIMIT also means no limit.  A positive limit takes the head of the
ordering. -/
def FinanceDatabase.get_transactions (db : FinanceDatabase) (limit : Option Int) :
    List Transaction :=
  let sorted := List.insertionSort txnOrder db.transactions
  match limit with
  | none => sorted
  | some k => if k ≤ 0 then sorted else sorted.take k.toNat

/-- Every transaction id stored in the log is below the AUTOINCREMENT
counter, so the next assigned id is fresh. -/
def idsFresh (db : FinanceDatabase) : Prop :=
  ∀ t ∈ db.transactions, t.id < db.nextId

/-! ## Concrete states used by the scenario parts of the claims -/

/-- Ledger state of the specification scenario: the two INR transactions of
2024-12 inserted into a fresh database. -/
def scenarioDB : FinanceDatabase :=
  (FinanceDatabase.add_transaction
    (FinanceDatabase.add_transaction FinanceDatabase.init
      "2024-12-01" "income" "Salary" 3000 "INR" "Monthly salary").1
    "2024-12-02" "expense" "Food" 50 "INR" "Grocery shopping").1

/-- A ledger holding three transactions on three distinct dates. -/
def sampleDB3 : FinanceDatabase :=
  (FinanceDatabase.add_transaction
    (FinanceDatabase.add_transaction
      (FinanceDatabase.add_transaction FinanceDatabase.init
        "2024-12-01" "income" "Salary" 100 "INR" "").1
      "2024-12-05" "expense" "Food" 20 "INR" "").1
    "2024-12-03" "expense" "Transportation" 30 "INR" "").1

/-- A ledger holding a single transaction. -/
def sampleDB1 : FinanceDatabase :=
  (FinanceDatabase.add_transaction FinanceDatabase.init
    "2024-12-01" "income" "Salary" 100 "INR" "").1

/-- A ledger holding a single January 2025 transaction. -/
def monthJanDB : FinanceDatabase :=
  (FinanceDatabase.add_transaction FinanceDatabase.init
    "2025-01-02" "income" "Salary" 3000 "INR" "").1

/-- A transaction dated 2025-02-01, outside the month "2025-01". -/
def febTxn : Transaction :=
  ⟨2, "2025-02-01", "expense", "Housing", 800, "INR", "", 1⟩

/-! ## Helper lemmas -/

/-- SUM(amount) with NULL collapsed by `or 0` equals the plain sum. -/
theorem sqlSumAmount_getD (ts : List Transaction) :
    (sqlSumAmount ts).getD 0 = (ts.map Transaction.amount).sum := by
  cases ts <;> simp [sqlSumAmount]

/-- Looking a key up in an association list tabulating `f` over a key list. -/
theorem lookup_map_keys (keys : List String) (f : String → Rat) (c : String) :
    (keys.map (fun k => (k, f k))).lookup c = if c ∈ keys then some (f c) else none := by
  induction keys with
  | nil => simp
  | cons k ks ih =>
      by_cases hck : c = k
      · subst hck
        simp [List.lookup]
      · simp [List.lookup, beq_false_of_ne hck, ih, List.mem_cons, hck]

/-- Characterization of the category map produced by the GROUP BY model. -/
theorem groupByCategory_lookup (ts : List Transaction) (c : String) :
    (groupByCategory ts).lookup c =
      if c ∈ ts.map Transaction.category then some (catSum ts c) else none := by
  rw [groupByCategory, lookup_map_keys]
  by_cases h : c ∈ (ts.map Transaction.category).dedup
  · rw [if_pos h, if_pos (List.mem_dedup.mp h)]
  · rw [if_neg h, if_neg (fun hh => h (List.mem_dedup.mpr hh))]

/-- Two characters with the same code point are equal. -/
theorem charEq_of_toNat_eq {a b : Char} (h : a.toNat = b.toNat) : a = b :=
  Char.ext (UInt32.toNat.inj h)

/-- Transitivity of the code-point lexicographic comparison. -/
theorem charsLt_trans (as : List Char) : ∀ bs cs,
    charsLt as bs = true → charsLt bs cs = true → charsLt as cs = true := by
  induction as with
  | nil =>
      intro bs cs h1 h2
      cases bs with
      | nil => simp [charsLt] at h1
      | cons b bs =>
          cases cs with
          | nil => simp [charsLt] at h2
          | cons c cs => simp [charsLt]
  | cons a as ih =>
      intro bs cs h1 h2
      cases bs with
      | nil => simp [charsLt] at h1
      | cons b bs =>
          cases cs with
          | nil => simp [charsLt] at h2
          | cons c cs =>
              simp only [charsLt] at h1 h2 ⊢
              by_cases hab : a.toNat < b.toNat
              · by_cases hbc : b.toNat < c.toNat
                · simp [Nat.lt_trans hab hbc]
                · by_cases hcb : c.toNat < b.toNat
                  · simp [hbc, hcb] at h2
                  · have hac : a.toNat < c.toNat := by omega
                    simp [hac]
              · by_cases hba : b.toNat < a.toNat
                · simp [hab, hba] at h1
                · simp only [if_neg hab, if_neg hba] at h1
                  by_cases hbc : b.toNat < c.toNat
                  · have hac : a.toNat < c.toNat := by omega
                    simp [hac]
                  · by_cases hcb : c.toNat < b.toNat
                    · simp [hbc, hcb] at h2
                    · simp only [if_neg hbc, if_neg hcb] at h2
                      have hac : ¬ a.toNat < c.toNat := by omega
                      have hca : ¬ c.toNat < a.toNat := by omega
                      simp only [if_neg hac, if_neg hca]
                      exact ih bs cs h1 h2

/-- Totality of the code-point lexicographic comparison. -/
theorem charsLt_total (as : List Char) : ∀ bs,
    charsLt as bs = true ∨ charsLt bs as = true ∨ as = bs := by
  induction as with
  | nil =>
      intro bs
      cases bs with
      | nil => exact Or.inr (Or.inr rfl)
      | cons b bs => exact Or.inl (by simp [charsLt])
  | cons a as ih =>
      intro bs
      cases bs with
      | nil => exact Or.inr (Or.inl (by simp [charsLt]))
      | cons b bs =>
          rcases Nat.lt_trichotomy a.toNat b.toNat with h | h | h
          · exact Or.inl (by simp [charsLt, h])
          · have hab : a = b := charEq_of_toNat_eq h
            subst hab
            have hlt : ¬ a.toNat < a.toNat := by omega
            rcases ih bs with h1 | h1 | h1
            · exact Or.inl (by simp [charsLt, hlt, h1])
            · exact Or.inr (Or.inl (by simp [charsLt, hlt, h1]))
            · exact Or.inr (Or.inr (by rw [h1]))
          · exact Or.inr (Or.inl (by simp [charsLt, h]))

/-- Transitivity of the SQLite TEXT order. -/
theorem strLt_trans {a b c : String} (h1 : strLt a b = true) (h2 : strLt b c = true) :
    strLt a c = true :=
  charsLt_trans a.toList b.toList c.toList h1 h2

/-- Totality of the SQLite TEXT order. -/
theorem strLt_total (a b : String) : strLt a b = true ∨ strLt b a = true ∨ a = b := by
  rcases charsLt_total a.toList b.toList with h | h | h
  · exact Or.inl h
  · exact Or.inr (Or.inl h)
  · exact Or.inr (Or.inr (String.toList_inj.mp h))

/-- The ORDER BY row order is total. -/
theorem txnOrder_total (a b : Transaction) : txnOrder a b ∨ txnOrder b a := by
  rcases strLt_total b.date a.date with h | h | h
  · exact Or.inl (Or.inl h)
  · exact Or.inr (Or.inl h)
  · rcases Nat.le_total b.created_at a.created_at with h2 | h2
    · exact Or.inl (Or.inr ⟨h.symm, h2⟩)
    · exact Or.inr (Or.inr ⟨h, h2⟩)

/-- The ORDER BY row order is transitive. -/
theorem txnOrder_trans (a b c : Transaction) (hab : txnOrder a b) (hbc : txnOrder b c) :
    txnOrder a c := by
  rcases hab with h1 | ⟨h1e, h1n⟩
  · rcases hbc with h2 | ⟨h2e, h2n⟩
    · exact Or.inl (strLt_trans h2 h1)
    · exact Or.inl (h2e ▸ h1)
  · rcases hbc with h2 | ⟨h2e, h2n⟩
    · exact Or.inl (h1e.symm ▸ h2)
    · exact Or.inr ⟨h1e.trans h2e, Nat.le_trans h2n h1n⟩

/-! ## Claim theorems -/

/-- C1.  For every transaction set, `get_balance` returns total_income equal
to the sum of amounts of income transactions (restricted to the given
currency when a filter is supplied), total_expenses analogously for
expenses, and balance equal to income minus expenses; when no transaction
matches, a total is 0 (never null); and, inserting (2024-12-01, income,
Salary, 3000, INR) and (2024-12-02, expense, Food, 50, INR) into an empty
ledger, `get_balance "INR"` returns {total_income 3000, total_expenses 50,
balance 2950}. -/
theorem get_balance_spec (db : FinanceDatabase) (filt : Option String) :
    (FinanceDatabase.get_balance db filt).total_income =
      ((db.transactions.filter (fun t => t.type == "income" && matchesCurrency filt t)).map
        Transaction.amount).sum ∧
    (FinanceDatabase.get_balance db filt).total_expenses =
      ((db.transactions.filter (fun t => t.type == "expense" && matchesCurrency filt t)).map
        Transaction.amount).sum ∧
    (FinanceDatabase.get_balance db filt).balance =
      (FinanceDatabase.get_balance db filt).total_income -
        (FinanceDatabase.get_balance db filt).total_expenses ∧
    ((∀ t ∈ db.transactions, ¬(t.type = "income" ∧ matchesCurrency filt t = true)) →
      (FinanceDatabase.get_balance db filt).total_income = 0) ∧
    ((∀ t ∈ db.transactions, ¬(t.type = "expense" ∧ matchesCurrency filt t = true)) →
      (FinanceDatabase.get_balance db filt).total_expenses = 0) ∧
    FinanceDatabase.get_balance scenarioDB (some "INR") = ⟨3000, 50, 2950⟩ := by
  refine ⟨?_, ?_, rfl, ?_, ?_, ?_⟩
  · simp [FinanceDatabase.get_balance, sqlSumAmount_getD]
  · simp [FinanceDatabase.get_balance, sqlSumAmount_getD]
  · intro h
    have hnil : db.transactions.filter
        (fun t => t.type == "income" && matchesCurrency filt t) = [] := by
      rw [List.filter_eq_nil_iff]
      intro t ht
      simp only [Bool.and_eq_true, beq_iff_eq]
      intro hcontra
      exact h t ht hcontra
    simp [FinanceDatabase.get_balance, hnil, sqlSumAmount]
  · intro h
    have hnil : db.transactions.filter
        (fun t => t.type == "expense" && matchesCurrency filt t) = [] := by
      rw [List.filter_eq_nil_iff]
      intro t ht
      simp only [Bool.and_eq_true, beq_iff_eq]
      intro hcontra
      exact h t ht hcontra
    simp [FinanceDatabase.get_balance, hnil, sqlSumAmount]
  · simp [scenarioDB, FinanceDatabase.init, FinanceDatabase.add_transaction,
      FinanceDatabase.get_balance, sqlSumAmount, matchesCurrency, Balance.mk.injEq]
    norm_num

/-- Witness instantiating the implications of the C1 theorem at a concrete
state: the fresh database has no income row, so the income total is 0. -/
theorem get_balance_spec_witness :
    (FinanceDatabase.get_balance FinanceDatabase.init (some "INR")).total_income = 0 :=
  (get_balance_spec FinanceDatabase.init (some "INR")).2.2.2.1
    (by intro t ht; simp [FinanceDatabase.init] at ht)

/-- C8.  Saving a contact list and loading it back yields exactly the
original contacts: the loaded elements are the encodings of the saved
contacts in order, and decoding each element recovers each contact. -/
theorem save_load_roundtrip (cs : List Contact) :
    ContactBookApp.load_contacts (ContactBookApp.save_contacts cs) = cs.map contactToJson ∧
    (ContactBookApp.load_contacts (ContactBookApp.save_contacts cs)).map contactOfJson
      = cs.map some := by
  refine ⟨rfl, ?_⟩
  show (cs.map contactToJson).map contactOfJson = cs.map some
  rw [List.map_map]
  rfl

/-- C10.  `clear_all_data` succeeds, empties the transactions, budgets and
savings_goals tables, and leaves the currency-setting row untouched, so
`get_default_currency` returns the same value after as before. -/
theorem clear_all_data_spec (db : FinanceDatabase) :
    (FinanceDatabase.clear_all_data db).2 = true ∧
    (FinanceDatabase.clear_all_data db).1.transactions = [] ∧
    (FinanceDatabase.clear_all_data db).1.budgets = [] ∧
    (FinanceDatabase.clear_all_data db).1.savings_goals = [] ∧
    (FinanceDatabase.clear_all_data db).1.currencySetting = db.currencySetting ∧
    FinanceDatabase.get_default_currency (FinanceDatabase.clear_all_data db).1
      = FinanceDatabase.get_default_currency db :=
  ⟨rfl, rfl, rfl, rfl, rfl, rfl⟩

/-- C5 (violation witness).  From the empty store, add "A" and "B", then
update "A" renaming it to "B": the resulting store holds two contacts named
"B", breaking name uniqueness; and updating a contact to blank fields
stores a contact with empty name and phone, breaking the required-field
invariant. -/
theorem contact_unique_key_violation :
    (ContactBookApp.update_contact
        (ContactBookApp.add_contact (ContactBookApp.add_contact [] "A" "1" "x@y").1 "B" "2" "").1
        (some "A") "B" "3" "").1 = [⟨"B", "3", ""⟩, ⟨"B", "2", ""⟩] ∧
    ¬ namesUnique (ContactBookApp.update_contact
        (ContactBookApp.add_contact (ContactBookApp.add_contact [] "A" "1" "x@y").1 "B" "2" "").1
        (some "A") "B" "3" "").1 ∧
    (ContactBookApp.update_contact [(⟨"A", "1", ""⟩ : Contact)] (some "A") "" "" "").1
      = [⟨"", "", ""⟩] := by
  refine ⟨by decide, ?_, by decide⟩
  unfold namesUnique
  decide

/-- C7 (counterexample).  Updating with an oldName absent from the store
does not fail with NotFound: on the empty store it returns the store
unchanged with no error at all. -/
theorem update_contact_notfound_cex :
    ContactBookApp.update_contact [] (some "Alice") "Bob" "123" "" = ([], none) ∧
    (ContactBookApp.update_contact [] (some "Alice") "Bob" "123" "").2 ≠
      some CBError.notFound := by
  refine ⟨by decide, by decide⟩

/-- C7 (amended).  When no stored contact carries the selected oldName, the
update is a silent no-op: the store is returned unchanged and no error is
reported (the code's only update-time warning concerns a missing
selection, not a missing record). -/
theorem update_contact_absent_spec (contacts : List Contact) (oldName name phone email : String)
    (h : ∀ c ∈ contacts, c.name ≠ oldName) :
    ContactBookApp.update_contact contacts (some oldName) name phone email
      = (contacts, none) := by
  have hany : contacts.any (fun c => c.name == oldName) = false := by
    rw [List.any_eq_false]
    intro c hc
    simp only [beq_iff_eq]
    exact h c hc
  simp [ContactBookApp.update_contact, hany]

/-- Witness for the C7 theorem at a concrete store. -/
theorem update_contact_absent_spec_witness :
    ContactBookApp.update_contact [(⟨"X", "1", ""⟩ : Contact)] (some "Alice") "Bob" "123" ""
      = ([⟨"X", "1", ""⟩], none) :=
  update_contact_absent_spec [⟨"X", "1", ""⟩] "Alice" "Bob" "123" "" (by decide)

/-- C9.  Deleting a name raises no error, removes every contact with that
name, is a no-op (rather than an error) when none match, and is
idempotent: deleting again returns the same store and again no error. -/
theorem delete_contact_spec (contacts : List Contact) (name : String) :
    (ContactBookApp.delete_contact contacts (some name)).2 = none ∧
    (∀ c ∈ (ContactBookApp.delete_contact contacts (some name)).1, c.name ≠ name) ∧
    ((∀ c ∈ contacts, c.name ≠ name) →
      (ContactBookApp.delete_contact contacts (some name)).1 = contacts) ∧
    ContactBookApp.delete_contact (ContactBookApp.delete_contact contacts (some name)).1
        (some name)
      = ((ContactBookApp.delete_contact contacts (some name)).1, none) := by
  refine ⟨rfl, ?_, ?_, ?_⟩
  · intro c hc
    have := List.of_mem_filter hc
    simpa [bne_iff_ne] using this
  · intro h
    simp only [ContactBookApp.delete_contact]
    rw [List.filter_eq_self]
    intro c hc
    simpa [bne_iff_ne] using h c hc
  · simp only [ContactBookApp.delete_contact, Prod.mk.injEq, and_true]
    rw [List.filter_eq_self]
    intro c hc
    have := List.of_mem_filter hc
    simpa using this

/-- Witness for the C9 theorem at a concrete store with no matching name. -/
theorem delete_contact_spec_witness :
    (ContactBookApp.delete_contact [(⟨"X", "1", ""⟩ : Contact)] (some "Alice")).1
      = [⟨"X", "1", ""⟩] :=
  (delete_contact_spec [⟨"X", "1", ""⟩] "Alice").2.2.1 (by decide)

/-- C3 (counterexample).  `get_transactions` with limit 0 does not return
at most 0 transactions: Python's `if limit:` treats 0 as "no limit given",
so the LIMIT clause is omitted and every row comes back. -/
theorem get_transactions_limit_zero_cex :
    FinanceDatabase.get_transactions sampleDB1 (some 0) = sampleDB1.transactions ∧
    ¬ ((FinanceDatabase.get_transactions sampleDB1 (some 0)).length ≤ 0) := by
  refine ⟨by decide, by decide⟩

/-- C3 (amended).  `get_transactions` returns a permutation of the stored
transactions sorted by date descending with ties broken by insertion
timestamp descending; for every positive limit it returns the head of that
ordering, hence at most limit transactions.  A limit of 0 is Python-falsy
and a negative limit is unlimited in SQLite, so both return all rows. -/
theorem get_transactions_spec (db : FinanceDatabase) (k : Int) (hk : 0 < k) :
    (FinanceDatabase.get_transactions db none).Perm db.transactions ∧
    List.Sorted txnOrder (FinanceDatabase.get_transactions db none) ∧
    FinanceDatabase.get_transactions db (some k) =
      (FinanceDatabase.get_transactions db none).take k.toNat ∧
    (FinanceDatabase.get_transactions db (some k)).length ≤ k.toNat := by
  haveI : IsTotal Transaction txnOrder := ⟨txnOrder_total⟩
  haveI : IsTrans Transaction txnOrder := ⟨fun a b c => txnOrder_trans a b c⟩
  have hnl : ¬ k ≤ 0 := not_le.mpr hk
  refine ⟨List.perm_insertionSort txnOrder db.transactions,
    List.sorted_insertionSort txnOrder db.transactions, ?_, ?_⟩
  · simp [FinanceDatabase.get_transactions, hnl]
  · simp only [FinanceDatabase.get_transactions, if_neg hnl]
    exact List.length_take_le _ _

/-- Witness applying the C3 theorem to a three-transaction ledger with
limit 2. -/
theorem get_transactions_spec_witness :
    (FinanceDatabase.get_transactions sampleDB3 none).Perm sampleDB3.transactions ∧
    List.Sorted txnOrder (FinanceDatabase.get_transactions sampleDB3 none) ∧
    FinanceDatabase.get_transactions sampleDB3 (some 2) =
      (FinanceDatabase.get_transactions sampleDB3 none).take (2 : Int).toNat ∧
    (FinanceDatabase.get_transactions sampleDB3 (some 2)).length ≤ (2 : Int).toNat :=
  get_transactions_spec sampleDB3 2 (by decide)

/-- C4 (counterexample).  A date that is not a valid calendar date is not
rejected: adding a transaction dated "not-a-date" succeeds and grows the
log, and a kind outside income/expense is rejected by the database CHECK
constraint and surfaces as the generic failure message, not as the
validation error. -/
theorem add_transaction_cex :
    (PersonalFinanceApp.add_transaction FinanceDatabase.init
        "not-a-date" "income" "Salary" 5 "INR" "").2 = AddOutcome.success ∧
    (PersonalFinanceApp.add_transaction FinanceDatabase.init
        "not-a-date" "income" "Salary" 5 "INR" "").1.transactions.length = 1 ∧
    (PersonalFinanceApp.add_transaction FinanceDatabase.init
        "2024-01-01" "transfer" "Misc" 5 "INR" "").2 = AddOutcome.dbError := by
  refine ⟨by decide, by decide, by decide⟩

/-- C4 (amended).  An amount ≤ 0 is rejected with the validation error and
the state is unchanged; a kind outside income/expense is rejected by the
CHECK constraint (reported as the generic database failure) with the state
unchanged; the date is never validated; on valid input the call succeeds,
appends exactly one record carrying the fresh id `nextId`, and preserves
the freshness invariant, so the new id strictly exceeds every id in the
log. -/
theorem add_transaction_spec (db : FinanceDatabase) (date ttype category : String)
    (amount : Rat) (currency descr : String) :
    (amount ≤ 0 →
      PersonalFinanceApp.add_transaction db date ttype category amount currency descr
        = (db, AddOutcome.validationError)) ∧
    (0 < amount → category ≠ "" → ttype ≠ "income" → ttype ≠ "expense" →
      PersonalFinanceApp.add_transaction db date ttype category amount currency descr
        = (db, AddOutcome.dbError)) ∧
    (0 < amount → category ≠ "" → (ttype = "income" ∨ ttype = "expense") →
      PersonalFinanceApp.add_transaction db date ttype category amount currency descr
        = ({ db with
              transactions := db.transactions ++
                [⟨db.nextId, date, ttype, category, amount, currency, descr, db.seq⟩],
              nextId := db.nextId + 1, seq := db.seq + 1 }, AddOutcome.success) ∧
      (idsFresh db →
        (∀ t ∈ db.transactions, t.id < db.nextId) ∧
        idsFresh (PersonalFinanceApp.add_transaction db date ttype category
          amount currency descr).1)) := by
  refine ⟨?_, ?_, ?_⟩
  · intro h
    by_cases hcat : category = ""
    · simp [PersonalFinanceApp.add_transaction, hcat]
    · simp [PersonalFinanceApp.add_transaction, hcat, h]
  · intro ha hcat ht1 ht2
    have hna : ¬ amount ≤ 0 := not_le.mpr ha
    have hty : ¬ (ttype = "income" ∨ ttype = "expense") := by
      rintro (h | h)
      · exact ht1 h
      · exact ht2 h
    simp [PersonalFinanceApp.add_transaction, FinanceDatabase.add_transaction,
      hcat, hna, hty]
  · intro ha hcat hty
    have hna : ¬ amount ≤ 0 := not_le.mpr ha
    have heq : PersonalFinanceApp.add_transaction db date ttype category amount currency descr
        = ({ db with
              transactions := db.transactions ++
                [⟨db.nextId, date, ttype, category, amount, currency, descr, db.seq⟩],
              nextId := db.nextId + 1, seq := db.seq + 1 }, AddOutcome.success) := by
      simp [PersonalFinanceApp.add_transaction, FinanceDatabase.add_transaction,
        hcat, hna, hty]
    refine ⟨heq, ?_⟩
    intro hfresh
    refine ⟨hfresh, ?_⟩
    rw [heq]
    intro t ht
    rcases List.mem_append.mp ht with hold | hnew
    · exact Nat.lt_succ_of_lt (hfresh t hold)
    · rcases List.mem_singleton.mp hnew with rfl
      exact Nat.lt_succ_self _

/-- Witness applying the C4 theorem: a non-positive amount is rejected, and
a valid income row is appended successfully. -/
theorem add_transaction_spec_witness :
    PersonalFinanceApp.add_transaction FinanceDatabase.init
        "2024-12-01" "income" "Salary" (-5) "INR" "" =
      (FinanceDatabase.init, AddOutcome.validationError) ∧
    (PersonalFinanceApp.add_transaction FinanceDatabase.init
        "2024-12-01" "income" "Salary" 3000 "INR" "").2 = AddOutcome.success := by
  constructor
  · exact (add_transaction_spec FinanceDatabase.init "2024-12-01" "income" "Salary"
      (-5) "INR" "").1 (by norm_num)
  · have h := ((add_transaction_spec FinanceDatabase.init "2024-12-01" "income" "Salary"
      (3000 : Rat) "INR" "").2.2 (by norm_num) (by decide) (Or.inl rfl)).1
    rw [h]

/-- C6.  `add_contact` fails with the required-fields validation warning
when the stripped name or phone is empty; on validated input it fails with
the duplicate warning, leaving the store unchanged, when a contact with the
same (case-sensitively compared) name already exists; otherwise it appends
the record and the store then contains exactly one contact with that
name. -/
theorem add_contact_spec (contacts : List Contact) (name phone email : String) :
    (pyStrip name = "" ∨ pyStrip phone = "" →
      ContactBookApp.add_contact contacts name phone email
        = (contacts, some CBError.validationError)) ∧
    (pyStrip name ≠ "" → pyStrip phone ≠ "" →
      (∃ c ∈ contacts, c.name = pyStrip name) →
      ContactBookApp.add_contact contacts name phone email
        = (contacts, some CBError.duplicateKey)) ∧
    (pyStrip name ≠ "" → pyStrip phone ≠ "" →
      (∀ c ∈ contacts, c.name ≠ pyStrip name) →
      ContactBookApp.add_contact contacts name phone email
          = (contacts ++ [(⟨pyStrip name, pyStrip phone, pyStrip email⟩ : Contact)], none) ∧
      (contacts ++ [(⟨pyStrip name, pyStrip phone, pyStrip email⟩ : Contact)]).countP
          (fun c => c.name == pyStrip name) = 1) := by
  refine ⟨?_, ?_, ?_⟩
  · intro h
    simp [ContactBookApp.add_contact, h]
  · intro hn hp hdup
    obtain ⟨c, hc, hcname⟩ := hdup
    have hany : contacts.any (fun c => c.name == pyStrip name) = true := by
      rw [List.any_eq_true]
      exact ⟨c, hc, by simp [hcname]⟩
    simp [ContactBookApp.add_contact, hn, hp, hany]
  · intro hn hp hno
    have hany : contacts.any (fun c => c.name == pyStrip name) = false := by
      rw [List.any_eq_false]
      intro c hc
      simp only [beq_iff_eq]
      exact hno c hc
    refine ⟨by simp [ContactBookApp.add_contact, hn, hp, hany], ?_⟩
    rw [List.countP_append]
    have h0 : contacts.countP (fun c => c.name == pyStrip name) = 0 := by
      rw [List.countP_eq_zero]
      intro c hc
      simp only [beq_iff_eq]
      exact hno c hc
    rw [h0]
    simp

/-- Witness applying the C6 theorem: a duplicate add is rejected and leaves
the store unchanged, and a fresh add appends. -/
theorem add_contact_spec_witness :
    ContactBookApp.add_contact [(⟨"A", "1", ""⟩ : Contact)] "A" "9" ""
      = ([⟨"A", "1", ""⟩], some CBError.duplicateKey) ∧
    ContactBookApp.add_contact [(⟨"A", "1", ""⟩ : Contact)] "B" "2" ""
      = ([⟨"A", "1", ""⟩, ⟨"B", "2", ""⟩], none) := by
  constructor
  · exact (add_contact_spec [⟨"A", "1", ""⟩] "A" "9" "").2.1 (by decide) (by decide)
      ⟨⟨"A", "1", ""⟩, by decide, by decide⟩
  · exact ((add_contact_spec [⟨"A", "1", ""⟩] "B" "2" "").2.2 (by decide) (by decide)
      (by decide)).1

/-- C2.  `get_monthly_data` sums income and expense totals over exactly the
transactions whose date starts with the year-month string; the category
maps contain a category exactly when a matching transaction exists, and
the value stored for a present category is the sum of that category's
matching amounts; and appending a transaction whose date does not start
with the year-month leaves every returned sum unchanged. -/
theorem get_monthly_data_spec (db : FinanceDatabase) (month : String)
    (_hm : isYearMonth month = true) :
    (FinanceDatabase.get_monthly_data db month).income =
      ((db.transactions.filter (fun t => t.type == "income" && strStartsWith t.date month)).map
        Transaction.amount).sum ∧
    (FinanceDatabase.get_monthly_data db month).expenses =
      ((db.transactions.filter (fun t => t.type == "expense" && strStartsWith t.date month)).map
        Transaction.amount).sum ∧
    (∀ c : String,
      (FinanceDatabase.get_monthly_data db month).income_categories.lookup c = none ↔
        ¬ ∃ t ∈ db.transactions,
            t.type = "income" ∧ strStartsWith t.date month = true ∧ t.category = c) ∧
    (∀ c : String,
      (FinanceDatabase.get_monthly_data db month).expense_categories.lookup c = none ↔
        ¬ ∃ t ∈ db.transactions,
            t.type = "expense" ∧ strStartsWith t.date month = true ∧ t.category = c) ∧
    (∀ c s, (FinanceDatabase.get_monthly_data db month).income_categories.lookup c = some s →
      s = (((db.transactions.filter
              (fun t => t.type == "income" && strStartsWith t.date month)).filter
            (fun t => t.category == c)).map Transaction.amount).sum) ∧
    (∀ c s, (FinanceDatabase.get_monthly_data db month).expense_categories.lookup c = some s →
      s = (((db.transactions.filter
              (fun t => t.type == "expense" && strStartsWith t.date month)).filter
            (fun t => t.category == c)).map Transaction.amount).sum) ∧
    (∀ t : Transaction, strStartsWith t.date month = false →
      FinanceDatabase.get_monthly_data { db with transactions := db.transactions ++ [t] } month
        = FinanceDatabase.get_monthly_data db month) := by
  refine ⟨?_, ?_, ?_, ?_, ?_, ?_, ?_⟩
  · simp [FinanceDatabase.get_monthly_data, sqlSumAmount_getD]
  · simp [FinanceDatabase.get_monthly_data, sqlSumAmount_getD]
  · intro c
    have hic : (FinanceDatabase.get_monthly_data db month).income_categories
        = groupByCategory (db.transactions.filter
            (fun t => t.type == "income" && strStartsWith t.date month)) := rfl
    rw [hic, groupByCategory_lookup]
    by_cases h : c ∈ (db.transactions.filter
        (fun t => t.type == "income" && strStartsWith t.date month)).map Transaction.category
    · rw [if_pos h]
      refine iff_of_false (by simp) ?_
      obtain ⟨t, htmem, htcat⟩ := List.mem_map.mp h
      have hmem := List.mem_filter.mp htmem
      simp only [Bool.and_eq_true, beq_iff_eq] at hmem
      exact not_not_intro ⟨t, hmem.1, hmem.2.1, hmem.2.2, htcat⟩
    · rw [if_neg h]
      refine iff_of_true rfl ?_
      rintro ⟨t, htmem, hty, hpre, hcat⟩
      exact h (List.mem_map.mpr ⟨t, List.mem_filter.mpr ⟨htmem, by simp [hty, hpre]⟩, hcat⟩)
  · intro c
    have hec : (FinanceDatabase.get_monthly_data db month).expense_categories
        = groupByCategory (db.transactions.filter
            (fun t => t.type == "expense" && strStartsWith t.date month)) := rfl
    rw [hec, groupByCategory_lookup]
    by_cases h : c ∈ (db.transactions.filter
        (fun t => t.type == "expense" && strStartsWith t.date month)).map Transaction.category
    · rw [if_pos h]
      refine iff_of_false (by simp) ?_
      obtain ⟨t, htmem, htcat⟩ := List.mem_map.mp h
      have hmem := List.mem_filter.mp htmem
      simp only [Bool.and_eq_true, beq_iff_eq] at hmem
      exact not_not_intro ⟨t, hmem.1, hmem.2.1, hmem.2.2, htcat⟩
    · rw [if_neg h]
      refine iff_of_true rfl ?_
      rintro ⟨t, htmem, hty, hpre, hcat⟩
      exact h (List.mem_map.mpr ⟨t, List.mem_filter.mpr ⟨htmem, by simp [hty, hpre]⟩, hcat⟩)
  · intro c s hs
    have hic : (FinanceDatabase.get_monthly_data db month).income_categories
        = groupByCategory (db.transactions.filter
            (fun t => t.type == "income" && strStartsWith t.date month)) := rfl
    rw [hic, groupByCategory_lookup] at hs
    by_cases h : c ∈ (db.transactions.filter
        (fun t => t.type == "income" && strStartsWith t.date month)).map Transaction.category
    · rw [if_pos h] at hs
      exact (Option.some.inj hs).symm
    · rw [if_neg h] at hs
      cases hs
  · intro c s hs
    have hec : (FinanceDatabase.get_monthly_data db month).expense_categories
        = groupByCategory (db.transactions.filter
            (fun t => t.type == "expense" && strStartsWith t.date month)) := rfl
    rw [hec, groupByCategory_lookup] at hs
    by_cases h : c ∈ (db.transactions.filter
        (fun t => t.type == "expense" && strStartsWith t.date month)).map Transaction.category
    · rw [if_pos h] at hs
      exact (Option.some.inj hs).symm
    · rw [if_neg h] at hs
      cases hs
  · intro t ht
    simp [FinanceDatabase.get_monthly_data, List.filter_append, ht]

/-- Witness applying the C2 theorem: a transaction dated 2025-02-01
contributes nothing to the breakdown for "2025-01". -/
theorem get_monthly_data_spec_witness :
    FinanceDatabase.get_monthly_data
        { monthJanDB with transactions := monthJanDB.transactions ++ [febTxn] } "2025-01"
      = FinanceDatabase.get_monthly_data monthJanDB "2025-01" :=
  (get_monthly_data_spec monthJanDB "2025-01" (by decide)).2.2.2.2.2.2 febTxn (by decide)
